import Mathlib

/-!
# Verification of the CMP client (`src/cmp_client.ts`)

A shallow embedding of the connectivity-management-platform API client:
request signing (HMAC-SHA256), the base64/JSON pagination-cursor codec,
response-envelope classification in `makeRequest`, the query-operation
request builders with their validation, and the byte-count formatter.

Modelling conventions:
* Text is modelled by its UTF-8 byte sequence (`List Nat`, each byte < 256);
  Node's `Buffer.from(s, "utf-8")` / `.toString("utf-8")` conversions are then
  identities and disappear from the model.
* Machine integers are `Nat`/`Int` with explicit `% 2 ^ 32` where the source's
  arithmetic wraps (inside SHA-256).
* Platform primitives the source calls (`node:crypto` HMAC-SHA256, the JS
  `JSON`/`Buffer` codecs, `fetch`) are modelled concretely by executable
  reference implementations of their documented behaviour; everything else is
  translated directly from the source.
-/

namespace CMP

/-- UTF-8 encoding of a single Unicode code point, as bytes. -/
def utf8Bytes (c : Nat) : List Nat :=
  if c < 128 then [c]
  else if c < 2048 then [192 + c / 64, 128 + c % 64]
  else if c < 65536 then [224 + c / 4096, 128 + (c / 64) % 64, 128 + c % 64]
  else [240 + c / 262144, 128 + (c / 4096) % 64, 128 + (c / 64) % 64, 128 + c % 64]

/-- The UTF-8 bytes of a string (the model of `Buffer.from(s, "utf-8")`). -/
def strBytes (s : String) : List Nat :=
  s.data.flatMap (fun c => utf8Bytes c.toNat)

/-- Render a byte list as a string, byte-per-char (exact on ASCII content). -/
def bytesToString (bs : List Nat) : String :=
  String.mk (bs.map Char.ofNat)

/-- Lowercase hexadecimal digit characters: the ten decimal digits followed
by the letters a to f. -/
def hexDigitChars : List Char :=
  (List.range 10).map (fun n => Char.ofNat (48 + n)) ++
    (List.range 6).map (fun n => Char.ofNat (97 + n))

/-- The lowercase hex digit for a value below 16. -/
def hexDigit (n : Nat) : Char := hexDigitChars.getD n '0'

/-- Lowercase hex encoding of a byte list (the model of `.digest("hex")`). -/
def hexLower (bs : List Nat) : String :=
  String.mk (bs.flatMap (fun b => [hexDigit (b / 16), hexDigit (b % 16)]))

/-! ## SHA-256 (reference implementation of the `node:crypto` primitive)

Words are `Nat` values kept below `2 ^ 32` by explicit reduction. -/

/-- SHA-256 round constants (FIPS 180-4, written in decimal). -/
def sha256K : List Nat :=
  [1116352408, 1899447441, 3049323471, 3921009573, 961987163,
   1508970993, 2453635748, 2870763221, 3624381080, 310598401,
   607225278, 1426881987, 1925078388, 2162078206, 2614888103,
   3248222580, 3835390401, 4022224774, 264347078, 604807628,
   770255983, 1249150122, 1555081692, 1996064986, 2554220882,
   2821834349, 2952996808, 3210313671, 3336571891, 3584528711,
   113926993, 338241895, 666307205, 773529912, 1294757372,
   1396182291, 1695183700, 1986661051, 2177026350, 2456956037,
   2730485921, 2820302411, 3259730800, 3345764771, 3516065817,
   3600352804, 4094571909, 275423344, 430227734, 506948616,
   659060556, 883997877, 958139571, 1322822218, 1537002063,
   1747873779, 1955562222, 2024104815, 2227730452, 2361852424,
   2428436474, 2756734187, 3204031479, 3329325298]

/-- SHA-256 initial hash state (FIPS 180-4, written in decimal). -/
def sha256H0 : List Nat :=
  [1779033703, 3144134277, 1013904242, 2773480762,
   1359893119, 2600822924, 528734635, 1541459225]

/-- Right rotation of a 32-bit word (input assumed below `2 ^ 32`). -/
def rotr32 (n x : Nat) : Nat := x / 2 ^ n + x % 2 ^ n * 2 ^ (32 - n)

/-- Bitwise complement on 32-bit words. -/
def wnot (x : Nat) : Nat := Nat.xor x 0xffffffff

/-- SHA-256 small sigma 0. -/
def sigmaSmall0 (x : Nat) : Nat := Nat.xor (rotr32 7 x) (Nat.xor (rotr32 18 x) (x / 2 ^ 3))

/-- SHA-256 small sigma 1. -/
def sigmaSmall1 (x : Nat) : Nat := Nat.xor (rotr32 17 x) (Nat.xor (rotr32 19 x) (x / 2 ^ 10))

/-- SHA-256 big sigma 0. -/
def sigmaBig0 (x : Nat) : Nat := Nat.xor (rotr32 2 x) (Nat.xor (rotr32 13 x) (rotr32 22 x))

/-- SHA-256 big sigma 1. -/
def sigmaBig1 (x : Nat) : Nat := Nat.xor (rotr32 6 x) (Nat.xor (rotr32 11 x) (rotr32 25 x))

/-- SHA-256 choice function. -/
def chWord (x y z : Nat) : Nat := Nat.xor (Nat.land x y) (Nat.land (wnot x) z)

/-- SHA-256 majority function. -/
def majWord (x y z : Nat) : Nat :=
  Nat.xor (Nat.land x y) (Nat.xor (Nat.land x z) (Nat.land y z))

/-- Big-endian bytes of a value, fixed width `n` bytes. -/
def natToBytesBE : Nat → Nat → List Nat
  | 0, _ => []
  | n + 1, v => natToBytesBE n (v / 256) ++ [v % 256]

/-- Group bytes into big-endian 32-bit words. -/
def bytesToWords : List Nat → List Nat
  | b0 :: b1 :: b2 :: b3 :: rest =>
      (((b0 * 256 + b1) * 256 + b2) * 256 + b3) :: bytesToWords rest
  | _ => []

/-- Extend the 16-word message schedule to 64 words. -/
def extendSchedule (w0 : List Nat) : List Nat :=
  (List.range 48).foldl
    (fun w i =>
      let t := i + 16
      w ++ [(sigmaSmall1 (w.getD (t - 2) 0) + w.getD (t - 7) 0 +
             sigmaSmall0 (w.getD (t - 15) 0) + w.getD (t - 16) 0) % 2 ^ 32])
    w0

/-- One SHA-256 compression step over a 64-byte block. -/
def sha256Compress (hs : List Nat) (block : List Nat) : List Nat :=
  let w := extendSchedule (bytesToWords block)
  let step := fun (st : List Nat) (i : Nat) =>
    match st with
    | [a, b, c, d, e, f, g, h] =>
        let t1 := (h + sigmaBig1 e + chWord e f g + sha256K.getD i 0 + w.getD i 0) % 2 ^ 32
        let t2 := (sigmaBig0 a + majWord a b c) % 2 ^ 32
        [(t1 + t2) % 2 ^ 32, a, b, c, (d + t1) % 2 ^ 32, e, f, g]
    | other => other
  let fin := (List.range 64).foldl step hs
  List.zipWith (fun x y => (x + y) % 2 ^ 32) hs fin

/-- SHA-256 message padding: `0x80`, zeros to 56 mod 64, 64-bit bit length. -/
def sha256Pad (msg : List Nat) : List Nat :=
  let zeros := (119 - msg.length % 64) % 64
  msg ++ [128] ++ List.replicate zeros 0 ++ natToBytesBE 8 (msg.length * 8)

/-- Split a byte list into 64-byte blocks (fuel-driven, total). -/
def chunks64Aux : Nat → List Nat → List (List Nat)
  | 0, _ => []
  | _, [] => []
  | fuel + 1, l => l.take 64 :: chunks64Aux fuel (l.drop 64)

/-- Split a byte list into 64-byte blocks. -/
def chunks64 (l : List Nat) : List (List Nat) := chunks64Aux l.length l

/-- SHA-256 digest of a byte list, as 32 bytes. -/
def sha256 (msg : List Nat) : List Nat :=
  let blocks := chunks64 (sha256Pad msg)
  let hs := blocks.foldl sha256Compress sha256H0
  (hs.map (natToBytesBE 4)).flatten

/-- HMAC-SHA256 (RFC 2104 with the SHA-256 block size of 64 bytes). -/
def hmacSha256 (key msg : List Nat) : List Nat :=
  let k0 := if 64 < key.length then sha256 key else key
  let kPad := k0 ++ List.replicate (64 - k0.length) 0
  let ipad := kPad.map (Nat.xor 0x36)
  let opad := kPad.map (Nat.xor 0x5c)
  sha256 (opad ++ sha256 (ipad ++ msg))

/-! ## Request signing (`generateSignature`, cmp_client.ts lines 178-181) -/

/-- `generateSignature`: sign content is `appKey + timestamp.toString() + requestBody`
(plain concatenation), keyed HMAC-SHA256 with `appSecret`, hex digest. -/
def generateSignature (appKey appSecret : String) (timestamp : Nat)
    (requestBody : String) : String :=
  let signContent := appKey ++ toString timestamp ++ requestBody
  hexLower (hmacSha256 (strBytes appSecret) (strBytes signContent))

/-- The signature formula as the specification words it: lowercase hex encoding
of HMAC-SHA256 keyed by the app secret over the delimiter-free concatenation
of app key, decimal timestamp, and serialized body. -/
def signatureSpec (appKey appSecret : String) (timestamp : Nat)
    (body : String) : String :=
  hexLower (hmacSha256 (strBytes appSecret)
    (strBytes (appKey ++ Nat.repr timestamp ++ body)))

/-! ## Base64 (model of Node `Buffer` base64 encode / forgiving decode)

`base64Encode` is standard padded base64 (`Buffer.toString("base64")`).
`base64Decode` models `Buffer.from(s, "base64")`, which never throws: it
accepts both standard and url-safe alphabets, ignores every other character
(including `=`), and decodes the surviving 6-bit groups, dropping a trailing
lone group of one. -/

/-- The base64 alphabet character (as a byte) for a 6-bit value. -/
def b64Char (n : Nat) : Nat :=
  if n < 26 then 65 + n
  else if n < 52 then 97 + (n - 26)
  else if n < 62 then 48 + (n - 52)
  else if n = 62 then 43
  else 47

/-- Standard padded base64 encoding of a byte list (output is ASCII bytes). -/
def base64Encode : List Nat → List Nat
  | [] => []
  | [b1] => [b64Char (b1 / 4), b64Char (b1 % 4 * 16), 61, 61]
  | [b1, b2] => [b64Char (b1 / 4), b64Char (b1 % 4 * 16 + b2 / 16),
                 b64Char (b2 % 16 * 4), 61]
  | b1 :: b2 :: b3 :: rest =>
      b64Char (b1 / 4) :: b64Char (b1 % 4 * 16 + b2 / 16) ::
      b64Char (b2 % 16 * 4 + b3 / 64) :: b64Char (b3 % 64) :: base64Encode rest

/-- The 6-bit value of a base64 character byte; `none` for non-alphabet bytes
(url-safe `-` and `_` are accepted, as Node does). -/
def b64Val (c : Nat) : Option Nat :=
  if 65 ≤ c ∧ c ≤ 90 then some (c - 65)
  else if 97 ≤ c ∧ c ≤ 122 then some (c - 71)
  else if 48 ≤ c ∧ c ≤ 57 then some (c + 4)
  else if c = 43 ∨ c = 45 then some 62
  else if c = 47 ∨ c = 95 then some 63
  else none

/-- Reassemble bytes from a list of 6-bit values, four at a time; a trailing
group of three yields two bytes, of two yields one byte, of one is dropped. -/
def decodeVals : List Nat → List Nat
  | v1 :: v2 :: v3 :: v4 :: rest =>
      (v1 * 4 + v2 / 16) :: (v2 % 16 * 16 + v3 / 4) :: (v3 % 4 * 64 + v4) ::
      decodeVals rest
  | [v1, v2] => [v1 * 4 + v2 / 16]
  | [v1, v2, v3] => [v1 * 4 + v2 / 16, v2 % 16 * 16 + v3 / 4]
  | _ => []

/-- Forgiving base64 decode (never fails), as Node `Buffer.from(·, "base64")`. -/
def base64Decode (input : List Nat) : List Nat :=
  decodeVals (input.filterMap b64Val)

/-! ## JSON values (model of the JS `JSON` primitive on the data this client
moves)

String content is the UTF-8 byte sequence; numbers are modelled as integers
(the cursor records and envelope codes this client handles are integral —
IEEE-754 fractions are outside the embedding). -/

/-- A JSON value. -/
inductive Json where
  | jnull : Json
  | jbool (b : Bool) : Json
  | jnum (n : Int) : Json
  | jstr (s : List Nat) : Json
  | jarr (elems : List Json) : Json
  | jobj (fields : List (List Nat × Json)) : Json
deriving Repr

/-- Decimal digit bytes of a natural number, most significant first. -/
def natDigits (n : Nat) : List Nat :=
  if n = 0 then [48] else ((Nat.digits 10 n).map (· + 48)).reverse

/-- Decimal rendering of an integer as ASCII bytes. -/
def intDigits (n : Int) : List Nat :=
  if n < 0 then 45 :: natDigits n.natAbs else natDigits n.natAbs

/-- JSON escaping of one string-content byte, as `JSON.stringify` emits it:
quote and backslash get a backslash escape, the five C0 controls with short
escapes use them, other C0 controls become `\u00XX`, all else is literal. -/
def escapeByte (b : Nat) : List Nat :=
  if b = 34 then [92, 34]
  else if b = 92 then [92, 92]
  else if b = 8 then [92, 98]
  else if b = 9 then [92, 116]
  else if b = 10 then [92, 110]
  else if b = 12 then [92, 102]
  else if b = 13 then [92, 114]
  else if b < 32 then [92, 117, 48, 48, 48 + b / 16, if b % 16 < 10 then 48 + b % 16 else 87 + b % 16]
  else [b]

/-- A JSON string literal: quote, escaped content, quote. -/
def escapeString (s : List Nat) : List Nat :=
  34 :: s.flatMap escapeByte ++ [34]

mutual

/-- `JSON.stringify` (no whitespace), producing UTF-8 bytes. -/
def jsonStringify : Json → List Nat
  | .jnull => [110, 117, 108, 108]
  | .jbool true => [116, 114, 117, 101]
  | .jbool false => [102, 97, 108, 115, 101]
  | .jnum n => intDigits n
  | .jstr s => escapeString s
  | .jarr xs => 91 :: stringifyElems xs ++ [93]
  | .jobj fs => 123 :: stringifyFields fs ++ [125]

/-- Comma-joined stringification of array elements. -/
def stringifyElems : List Json → List Nat
  | [] => []
  | [x] => jsonStringify x
  | x :: rest => jsonStringify x ++ 44 :: stringifyElems rest

/-- Comma-joined stringification of object members (`"key":value`). -/
def stringifyFields : List (List Nat × Json) → List Nat
  | [] => []
  | [(k, v)] => escapeString k ++ 58 :: jsonStringify v
  | (k, v) :: rest => escapeString k ++ 58 :: jsonStringify v ++ 44 :: stringifyFields rest

end

/-! ## JSON parsing (model of `JSON.parse`, restricted to integral numbers) -/

/-- JSON insignificant whitespace bytes. -/
def isWsByte (b : Nat) : Bool := b = 32 || b = 9 || b = 10 || b = 13

/-- Drop leading JSON whitespace. -/
def skipWs : List Nat → List Nat
  | [] => []
  | b :: rest => if isWsByte b then skipWs rest else b :: rest

/-- Value of a hex digit byte. -/
def hexVal (c : Nat) : Option Nat :=
  if 48 ≤ c ∧ c ≤ 57 then some (c - 48)
  else if 97 ≤ c ∧ c ≤ 102 then some (c - 87)
  else if 65 ≤ c ∧ c ≤ 70 then some (c - 55)
  else none

mutual

/-- Parse the body of a JSON string literal (after the opening quote) up to and
including the closing quote, returning the decoded content bytes and the rest.
Raw control bytes are rejected, as `JSON.parse` rejects them. -/
def parseStringBody : List Nat → Option (List Nat × List Nat)
  | [] => none
  | b :: rest =>
      if b = 34 then some ([], rest)
      else if b = 92 then parseEscape rest
      else if b < 32 then none
      else (parseStringBody rest).map (fun p => (b :: p.1, p.2))

/-- Parse one string escape (the bytes after a backslash) and the remainder of
the string body. Escapes: the two quoted characters, `\/`, the five short
controls, and `\uXXXX` (emitted as the UTF-8 bytes of the code unit). -/
def parseEscape : List Nat → Option (List Nat × List Nat)
  | 34 :: rest => (parseStringBody rest).map (fun p => (34 :: p.1, p.2))
  | 92 :: rest => (parseStringBody rest).map (fun p => (92 :: p.1, p.2))
  | 47 :: rest => (parseStringBody rest).map (fun p => (47 :: p.1, p.2))
  | 98 :: rest => (parseStringBody rest).map (fun p => (8 :: p.1, p.2))
  | 116 :: rest => (parseStringBody rest).map (fun p => (9 :: p.1, p.2))
  | 110 :: rest => (parseStringBody rest).map (fun p => (10 :: p.1, p.2))
  | 102 :: rest => (parseStringBody rest).map (fun p => (12 :: p.1, p.2))
  | 114 :: rest => (parseStringBody rest).map (fun p => (13 :: p.1, p.2))
  | 117 :: h1 :: h2 :: h3 :: h4 :: rest => do
      let v1 ← hexVal h1
      let v2 ← hexVal h2
      let v3 ← hexVal h3
      let v4 ← hexVal h4
      (parseStringBody rest).map
        (fun p => (utf8Bytes (((v1 * 16 + v2) * 16 + v3) * 16 + v4) ++ p.1, p.2))
  | _ => none

end

/-- Is a decimal digit byte. -/
def isDigitByte (b : Nat) : Bool := 48 ≤ b && b ≤ 57

/-- Split off the longest prefix of decimal digit bytes. -/
def takeDigits : List Nat → List Nat × List Nat
  | [] => ([], [])
  | b :: rest =>
      if isDigitByte b then
        let p := takeDigits rest
        (b :: p.1, p.2)
      else ([], b :: rest)

/-- Numeric value of a list of decimal digit bytes (most significant first). -/
def digitsVal (ds : List Nat) : Nat := ds.foldl (fun a d => a * 10 + (d - 48)) 0

/-- Parse an integral JSON number: optional minus, one or more digits. -/
def parseNumberBody : List Nat → Option (Int × List Nat)
  | [] => none
  | b :: rest =>
      if b = 45 then
        let p := takeDigits rest
        if p.1 = [] then none else some (-(digitsVal p.1 : Int), p.2)
      else
        let p := takeDigits (b :: rest)
        if p.1 = [] then none else some ((digitsVal p.1 : Int), p.2)

mutual

/-- Fuel-driven JSON value parser. Consumes leading whitespace, parses one
value, and returns it with the unconsumed rest. -/
def parseValue : Nat → List Nat → Option (Json × List Nat)
  | 0, _ => none
  | fuel + 1, input =>
    match skipWs input with
    | [] => none
    | b :: rest =>
      if b = 34 then (parseStringBody rest).map (fun p => (.jstr p.1, p.2))
      else if b = 91 then
        (match skipWs rest with
         | 93 :: r => some (.jarr [], r)
         | other => (parseElems fuel other).map (fun p => (.jarr p.1, p.2)))
      else if b = 123 then
        (match skipWs rest with
         | 125 :: r => some (.jobj [], r)
         | other => (parseMembers fuel other).map (fun p => (.jobj p.1, p.2)))
      else if b = 110 then
        (match rest with
         | 117 :: 108 :: 108 :: r => some (.jnull, r)
         | _ => none)
      else if b = 116 then
        (match rest with
         | 114 :: 117 :: 101 :: r => some (.jbool true, r)
         | _ => none)
      else if b = 102 then
        (match rest with
         | 97 :: 108 :: 115 :: 101 :: r => some (.jbool false, r)
         | _ => none)
      else (parseNumberBody (b :: rest)).map (fun p => (.jnum p.1, p.2))

/-- Parse one or more comma-separated array elements up to and including the
closing bracket. -/
def parseElems : Nat → List Nat → Option (List Json × List Nat)
  | 0, _ => none
  | fuel + 1, input => do
      let (v, r1) ← parseValue fuel input
      match skipWs r1 with
      | 44 :: r2 => (parseElems fuel r2).map (fun p => (v :: p.1, p.2))
      | 93 :: r2 => some ([v], r2)
      | _ => none

/-- Parse one or more comma-separated object members up to and including the
closing brace. -/
def parseMembers : Nat → List Nat → Option (List (List Nat × Json) × List Nat)
  | 0, _ => none
  | fuel + 1, input =>
      match skipWs input with
      | 34 :: rest => do
          let (k, r1) ← parseStringBody rest
          match skipWs r1 with
          | 58 :: r2 => do
              let (v, r3) ← parseValue fuel r2
              match skipWs r3 with
              | 44 :: r4 => (parseMembers fuel r4).map (fun p => ((k, v) :: p.1, p.2))
              | 125 :: r4 => some ([(k, v)], r4)
              | _ => none
          | _ => none
      | _ => none

end

/-- `JSON.parse`: parse one value and require only whitespace after it. -/
def jsonParse (input : List Nat) : Option Json :=
  match parseValue (input.length + 1) input with
  | some (v, rest) => if skipWs rest = [] then some v else none
  | none => none

/-! ## Pagination-cursor codec (cmp_client.ts lines 10-14 and 390-400) -/

/-- The message of the error `parseCursor` throws. -/
def invalidCursorMsg : String := "Invalid cursor format"

/-- `createCursor`: JSON-stringify, then base64-encode the UTF-8 bytes. -/
def createCursor (data : Json) : List Nat :=
  base64Encode (jsonStringify data)

/-- `parseCursor`: base64-decode, then JSON-parse; any failure inside the
`try` becomes the single `Invalid cursor format` error. -/
def parseCursor (cursor : List Nat) : Except String Json :=
  match jsonParse (base64Decode cursor) with
  | some v => .ok v
  | none => .error invalidCursorMsg

/-! ## `makeRequest` response classification (cmp_client.ts lines 195-264)

The network stage is an input: what `fetch` / `response.json()` delivered.
Logging is modelled as the list of strings handed to the error-level logger.
All thrown errors are plain strings, as in the source, where every error is a
bare `Error` distinguished only by its message text. -/

/-- What the transport layer delivered to `makeRequest`:
a thrown `fetch` (with the thrown error's message), a non-success HTTP status
(with the response's body text), or a success status with the outcome of
`response.json()` (parsed value, or the parse error's message). -/
inductive FetchResult where
  | transportFail (msg : String) : FetchResult
  | notOk (status : Nat) (statusText : String) (bodyText : String) : FetchResult
  | okJson (body : Except String Json) : FetchResult

/-- JS falsiness of a JSON value (`!parsedBody`). -/
def jsFalsy : Json → Bool
  | .jnull => true
  | .jbool b => !b
  | .jnum n => n = 0
  | .jstr s => s.isEmpty
  | _ => false

/-- JS `typeof x === "object"` on a JSON value (true for null, arrays, objects). -/
def isObjectLike : Json → Bool
  | .jnull => true
  | .jarr _ => true
  | .jobj _ => true
  | _ => false

/-- Property lookup on a JSON value: first binding of the key in an object,
`undefined` (none) otherwise. -/
def jsonLookup (key : List Nat) : Json → Option Json
  | .jobj fields => (fields.find? (fun kv => kv.1 == key)).map (fun kv => kv.2)
  | _ => none

/-- The `code` key. -/
def keyCode : List Nat := strBytes "code"

/-- The `msg` key. -/
def keyMsg : List Nat := strBytes "msg"

/-- The `data` key. -/
def keyData : List Nat := strBytes "data"

mutual

/-- JS template-literal display of a JSON value (exact on numbers, strings,
booleans and null — the shapes the client's messages interpolate; arrays
join their elements with commas, objects display as `[object Object]`). -/
def jsToDisplay : Json → String
  | .jnum n => toString n
  | .jstr s => bytesToString s
  | .jbool true => "true"
  | .jbool false => "false"
  | .jnull => "null"
  | .jarr xs => jsToDisplayList xs
  | .jobj _ => "[object Object]"

/-- Comma-joined display of array elements. -/
def jsToDisplayList : List Json → String
  | [] => ""
  | [x] => jsToDisplay x
  | x :: rest => jsToDisplay x ++ "," ++ jsToDisplayList rest

end

/-- `result.msg || "Unknown error"`: the displayed `msg` field when present
and truthy, else the placeholder. -/
def msgOrUnknown (body : Json) : String :=
  match jsonLookup keyMsg body with
  | some m => if jsFalsy m then "Unknown error" else jsToDisplay m
  | none => "Unknown error"

/-- The API-error message `API Error [<code>]: <msg or placeholder>`. -/
def apiErrMsg (codeStr : String) (body : Json) : String :=
  "API Error [" ++ codeStr ++ "]: " ++ msgOrUnknown body

/-- The body of `makeRequest`'s `try` block: classify the fetch outcome into
the returned envelope or the thrown error's message. -/
def classifyResponse : FetchResult → Except String Json
  | .transportFail msg => .error msg
  | .notOk status statusText _ =>
      .error ("HTTP Error: " ++ toString status ++ " " ++ statusText)
  | .okJson (.error jsonErr) => .error jsonErr
  | .okJson (.ok body) =>
      if jsFalsy body || !isObjectLike body then
        .error ("API Error: Invalid response format - " ++ bytesToString (jsonStringify body))
      else
        match jsonLookup keyCode body with
        | none =>
            .ok (.jobj [(keyCode, .jnum 200), (keyMsg, .jstr (strBytes "OK")),
                        (keyData, body)])
        | some (.jnum c) =>
            if c = 200 then .ok body else .error (apiErrMsg (toString c) body)
        | some other => .error (apiErrMsg (jsToDisplay other) body)

/-- `makeRequest`: the catch-all re-wraps every failure of the `try` body with
the `Request failed: ` prefix. -/
def makeRequest (r : FetchResult) : Except String Json :=
  match classifyResponse r with
  | .ok v => .ok v
  | .error m => .error ("Request failed: " ++ m)

/-- The strings handed to the error-level logger during `makeRequest`: the raw
body text of a non-success response, and the catch-all's line. -/
def makeRequestErrorLog (r : FetchResult) : List String :=
  (match r with
   | .notOk _ _ bodyText => ["❌ Response body: " ++ bodyText]
   | _ => []) ++
  (match classifyResponse r with
   | .error m => ["Request failed: " ++ m]
   | .ok _ => [])

/-! ## Query operations (cmp_client.ts lines 282-369) -/

/-- JS `String.prototype.trim` whitespace (the characters relevant here). -/
def isJsWsChar (c : Char) : Bool :=
  c = ' ' || c = '\t' || c = '\n' || c = '\r' || c.toNat = 11 || c.toNat = 12

/-- JS `trim`: strip leading and trailing whitespace. -/
def jsTrim (s : String) : String :=
  String.mk (((s.data.dropWhile isJsWsChar).reverse.dropWhile isJsWsChar).reverse)

/-- A JSON string from a Lean string. -/
def jstrS (s : String) : Json := .jstr (strBytes s)

/-- `querySimList` options (all optional, as in the TS interface). -/
structure SIMListQuery where
  pageNum : Option Nat := none
  pageSize : Option Nat := none
  enterpriseDataPlan : Option String := none
  expirationTimeStart : Option String := none
  expirationTimeEnd : Option String := none
  iccidStart : Option String := none
  iccidEnd : Option String := none
  label : Option String := none
  simState : Option Int := none
  simType : Option String := none

/-- A string-valued filter entry, added only when supplied and truthy
(`if (filter) data.filter = filter`). -/
def addIfString (key : String) (v : Option String) : List (String × Json) :=
  match v with
  | some s => if s = "" then [] else [(key, jstrS s)]
  | none => []

/-- A number-valued filter entry, added whenever supplied
(`if (filter !== undefined) data.filter = filter`). -/
def addIfNum (key : String) (v : Option Int) : List (String × Json) :=
  match v with
  | some n => [(key, Json.jnum n)]
  | none => []

/-- A trimmed string filter entry, added only when supplied and non-blank
(`if (filter && filter.trim()) data.filter = filter.trim()`). -/
def addIfTrimmed (key : String) (v : Option String) : List (String × Json) :=
  match v with
  | some s => if s = "" ∨ jsTrim s = "" then [] else [(key, jstrS (jsTrim s))]
  | none => []

/-- The body `querySimList` posts to `/sim/page`, in insertion order. -/
def querySimListBody (q : SIMListQuery) : List (String × Json) :=
  let pageNum := q.pageNum.getD 1
  let pageSize := q.pageSize.getD 10
  [("pageNum", Json.jnum pageNum), ("pageSize", Json.jnum (min pageSize 1000))]
  ++ addIfString "enterpriseDataPlan" q.enterpriseDataPlan
  ++ addIfString "expirationTimeStart" q.expirationTimeStart
  ++ addIfString "expirationTimeEnd" q.expirationTimeEnd
  ++ addIfString "iccidStart" q.iccidStart
  ++ addIfString "iccidEnd" q.iccidEnd
  ++ addIfString "label" q.label
  ++ addIfNum "simState" q.simState
  ++ addIfString "simType" q.simType

/-- `querySimDetail`: validate the ICCID, then the body posted to
`/sim/detail` (trimmed ICCID). -/
def querySimDetailReq (iccid : String) : Except String (List (String × Json)) :=
  if iccid = "" || jsTrim iccid = "" then .error "ICCID cannot be empty"
  else .ok [("iccid", jstrS (jsTrim iccid))]

/-- Does a string consist of exactly six decimal digits (`^\d_6_$`)? -/
def isSixDigits (s : String) : Bool :=
  s.length = 6 && s.data.all (fun c => '0' ≤ c && c ≤ '9')

/-- `querySimMonthData`: validate ICCID and month, then the body posted to
`/sim/queryMonthData` (both fields trimmed). -/
def querySimMonthDataReq (iccid month : String) :
    Except String (List (String × Json)) :=
  if iccid = "" || jsTrim iccid = "" then .error "ICCID cannot be empty"
  else if month = "" || jsTrim month = "" then .error "Month cannot be empty"
  else if !isSixDigits (jsTrim month) then
    .error "Month format must be yyyyMM (e.g., 202301)"
  else .ok [("iccid", jstrS (jsTrim iccid)), ("month", jstrS (jsTrim month))]

/-- `queryEuiccPage` options. -/
structure EuiccPageQuery where
  childEnterpriseId : Option Int := none
  iccid : Option String := none
  pageNum : Option Nat := none
  pageSize : Option Nat := none
  profileStatus : Option Int := none

/-- `queryEuiccPage`: assemble the body for `/esim/euicc/page`, then validate
the profile status; a validation failure throws before any request is sent,
so the error case carries no body. -/
def queryEuiccPageReq (q : EuiccPageQuery) :
    Except String (List (String × Json)) :=
  let pageNum := q.pageNum.getD 1
  let pageSize := q.pageSize.getD 10
  let data :=
    [("pageNum", Json.jnum pageNum), ("pageSize", Json.jnum (min pageSize 1000))]
    ++ addIfNum "childEnterpriseId" q.childEnterpriseId
    ++ addIfTrimmed "iccid" q.iccid
    ++ addIfNum "profileStatus" q.profileStatus
  match q.profileStatus with
  | some ps =>
      if ps < 1 || 9 < ps then
        .error "Profile status must be between 1-9 (see ProfileStatus enum)"
      else .ok data
  | none => .ok data

/-! ## `formatDataUsage` (cmp_client.ts lines 371-387)

The source divides an IEEE-754 number by 1024 and prints with `toFixed(2)`;
the model computes with exact rationals, `Math.round` as floor of `x + 1/2`,
and `toFixed(2)` as nearest-hundredth with ties to the larger value. -/

/-- The unit ladder. -/
def unitNames : List String := ["B", "KB", "MB", "GB", "TB"]

/-- JS `Math.round`: half-up (toward positive infinity). -/
def jsRound (q : Rat) : Int := Int.floor (q + 1 / 2)

/-- JS `toFixed(2)` for the nonnegative values arising here. -/
def toFixed2 (q : Rat) : String :=
  let m := Int.floor (q * 100 + 1 / 2)
  toString (m / 100) ++ "." ++ (if m % 100 < 10 then "0" else "") ++ toString (m % 100)

/-- The source's `while (size >= 1024 && unitIndex < units.length - 1)` loop;
at most four iterations can ever run, so fuel 4 is exact. -/
def fdGo : Nat → Rat → Nat → Rat × Nat
  | 0, size, ui => (size, ui)
  | fuel + 1, size, ui =>
      if 1024 ≤ size ∧ ui < 4 then fdGo fuel (size / 1024) (ui + 1)
      else (size, ui)

/-- `formatDataUsage`. -/
def formatDataUsage (bytesValue : Nat) : String :=
  if bytesValue = 0 then "0 B"
  else
    let p := fdGo 4 (bytesValue : Rat) 0
    if p.2 = 0 then toString (jsRound p.1) ++ " " ++ unitNames.getD 0 "B"
    else toFixed2 p.1 ++ " " ++ unitNames.getD p.2 "B"

/-- The number of divisions by 1024, as the specification describes it:
scale until the value drops below 1024, never beyond the TB unit. -/
def specScaleCount (n : Nat) : Nat :=
  if n < 1024 then 0
  else if n < 1024 ^ 2 then 1
  else if n < 1024 ^ 3 then 2
  else if n < 1024 ^ 4 then 3
  else 4

/-- The byte formatter as the specification words it: `0 B` for zero, else
repeated division by 1024 through B, KB, MB, GB, TB, nearest integer in the
B unit and two decimal places for all larger units. -/
def specFormatBytes (n : Nat) : String :=
  if n = 0 then "0 B"
  else
    let k := specScaleCount n
    if k = 0 then toString (jsRound (n : Rat)) ++ " B"
    else toFixed2 ((n : Rat) / 1024 ^ k) ++ " " ++ unitNames.getD k "B"

/-! ## Auxiliary predicates used by the statements -/

/-- Does `needle` occur as a contiguous segment of `hay`? -/
def segIn (needle : List Char) : List Char → Bool
  | [] => needle.isEmpty
  | c :: rest => needle.isPrefixOf (c :: rest) || segIn needle rest

/-- Is a JSON value a scalar (null, boolean, number, or string)? -/
def isScalar : Json → Bool
  | .jnull => true
  | .jbool _ => true
  | .jnum _ => true
  | .jstr _ => true
  | _ => false

/-- Is a JSON value a flat record: an object whose values are all scalars? -/
def flatRecord : Json → Bool
  | .jobj fs => fs.all (fun kv => isScalar kv.2)
  | _ => false

/-- Are the content bytes of a scalar genuine bytes (below 256)? -/
def scalarBytesOk : Json → Bool
  | .jstr s => s.all (fun b => b < 256)
  | _ => true

/-- Are all string-content and key bytes of a flat record genuine bytes
(below 256)? -/
def flatBytesOk : Json → Bool
  | .jobj fs => fs.all (fun kv => kv.1.all (fun b => b < 256) && scalarBytesOk kv.2)
  | _ => false

/-! ## Theorems -/

theorem hexDigit_mem (n : Nat) : hexDigit n ∈ hexDigitChars := by
  unfold hexDigit
  rcases Nat.lt_or_ge n 16 with h | h
  · interval_cases n <;> decide
  · rw [List.getD_eq_default]
    · decide
    · have hlen : hexDigitChars.length = 16 := by decide
      omega

theorem hexLower_chars (bs : List Nat) : ∀ c ∈ (hexLower bs).data, c ∈ hexDigitChars := by
  intro c hc
  simp only [hexLower] at hc
  simp only [List.mem_flatMap, List.mem_cons, List.mem_singleton] at hc
  obtain ⟨b, _, hb⟩ := hc
  rcases hb with h | h | h
  · exact h ▸ hexDigit_mem _
  · exact h ▸ hexDigit_mem _
  · cases h

/-- C1: for every appKey, appSecret, timestamp and serialized body, the
signature `generateSignature` produces is the lowercase hex encoding of
HMAC-SHA256 keyed by the appSecret over the plain delimiter-free
concatenation appKey ++ decimal timestamp ++ body (every output character is
a lowercase hex digit), and the function is deterministic: equal inputs give
equal digests. -/
theorem generateSignature_correct (appKey appSecret : String) (timestamp : Nat)
    (body : String) :
    generateSignature appKey appSecret timestamp body =
      signatureSpec appKey appSecret timestamp body ∧
    (∀ c ∈ (generateSignature appKey appSecret timestamp body).data,
      c ∈ hexDigitChars) ∧
    (∀ k s t b, k = appKey → s = appSecret → t = timestamp → b = body →
      generateSignature k s t b = generateSignature appKey appSecret timestamp body) := by
  refine ⟨rfl, ?_, ?_⟩
  · intro c hc
    exact hexLower_chars _ c hc
  · rintro k s t b rfl rfl rfl rfl
    rfl

/-- Witness for C1 at concrete inputs. -/
theorem generateSignature_correct_witness :
    generateSignature "myKey" "mySecret" 1700000000 "payload" =
      signatureSpec "myKey" "mySecret" 1700000000 "payload" ∧
    generateSignature "myKey" "mySecret" 1700000000 "payload" =
      generateSignature "myKey" "mySecret" 1700000000 "payload" :=
  ⟨(generateSignature_correct "myKey" "mySecret" 1700000000 "payload").1,
   (generateSignature_correct "myKey" "mySecret" 1700000000 "payload").2.2
     _ _ _ _ rfl rfl rfl rfl⟩

theorem makeRequest_error_shape (r : FetchResult) (m : String)
    (h : makeRequest r = .error m) :
    ∃ inner, classifyResponse r = .error inner ∧ m = "Request failed: " ++ inner := by
  unfold makeRequest at h
  cases hc : classifyResponse r with
  | ok v => rw [hc] at h; cases h
  | error i =>
      rw [hc] at h
      cases h
      exact ⟨i, rfl, rfl⟩

/-- C10: every error `makeRequest` propagates — transport failure, non-success
HTTP status, invalid response format, or an envelope with code other than
200 — is re-wrapped by the single catch-all: the caller-visible message is
exactly `Request failed: ` followed by the inner classification message.
(The error values are bare strings, as in the source: the kinds differ only
in message text, never in type.) -/
theorem makeRequest_error_wrapped (r : FetchResult) (m : String)
    (h : makeRequest r = .error m) :
    ∃ inner, classifyResponse r = .error inner ∧ m = "Request failed: " ++ inner :=
  makeRequest_error_shape r m h

/-- Witness for C10 at a concrete transport failure. -/
theorem makeRequest_error_wrapped_witness :
    ∃ inner, classifyResponse (.transportFail "connect ECONNREFUSED") = .error inner ∧
      "Request failed: connect ECONNREFUSED" = "Request failed: " ++ inner :=
  makeRequest_error_wrapped (.transportFail "connect ECONNREFUSED")
    "Request failed: connect ECONNREFUSED" rfl

/-- C8 counterexample: at the concrete non-success response with status 500,
status text `Internal Server Error` and body text `oops`, the error
`makeRequest` produces carries the status code and status text but NOT the
body text: `oops` occurs nowhere in the propagated message. -/
theorem makeRequest_httpError_body_not_carried :
    makeRequest (.notOk 500 "Internal Server Error" "oops") =
      .error "Request failed: HTTP Error: 500 Internal Server Error" ∧
    segIn "oops".data
      "Request failed: HTTP Error: 500 Internal Server Error".data = false := by
  exact ⟨rfl, by decide⟩

/-- C8 (amended): when the HTTP status is not in the success range,
`makeRequest` reads the response body as text and logs it at error level, and
fails with an error carrying the status code and the status text; the body
text is only logged, not carried in the propagated error. -/
theorem makeRequest_httpError_spec (status : Nat) (statusText bodyText : String) :
    makeRequest (.notOk status statusText bodyText) =
      .error ("Request failed: " ++
        ("HTTP Error: " ++ toString status ++ " " ++ statusText)) ∧
    ("❌ Response body: " ++ bodyText) ∈
      makeRequestErrorLog (.notOk status statusText bodyText) := by
  refine ⟨rfl, ?_⟩
  simp [makeRequestErrorLog, classifyResponse]

/-- C7: `queryEuiccPage` fails with the validation error exactly when a
profile status is supplied and lies outside the closed range 1..9; 0 and 10
fail, 1 and 9 pass, and an absent profile status never triggers it. The
failure is decided before any request value is produced: the error branch
carries no body. -/
theorem queryEuiccPage_profileStatus_validation :
    (∀ q : EuiccPageQuery, ∀ ps, q.profileStatus = some ps →
      (queryEuiccPageReq q =
          .error "Profile status must be between 1-9 (see ProfileStatus enum)" ↔
        ps < 1 ∨ 9 < ps)) ∧
    (∀ q : EuiccPageQuery, q.profileStatus = none →
      ∃ d, queryEuiccPageReq q = .ok d) ∧
    (∀ q : EuiccPageQuery, ∀ ps, q.profileStatus = some ps → 1 ≤ ps → ps ≤ 9 →
      ∃ d, queryEuiccPageReq q = .ok d) ∧
    (queryEuiccPageReq { profileStatus := some 0 } =
      .error "Profile status must be between 1-9 (see ProfileStatus enum)") ∧
    (queryEuiccPageReq { profileStatus := some 10 } =
      .error "Profile status must be between 1-9 (see ProfileStatus enum)") ∧
    (∃ d, queryEuiccPageReq { profileStatus := some 1 } = .ok d) ∧
    (∃ d, queryEuiccPageReq { profileStatus := some 9 } = .ok d) := by
  refine ⟨?_, ?_, ?_, rfl, rfl, ⟨_, rfl⟩, ⟨_, rfl⟩⟩
  · intro q ps hps
    unfold queryEuiccPageReq
    rw [hps]
    by_cases h : ps < 1 ∨ 9 < ps
    · rcases h with h | h <;>
        simp [h, show (ps < 1 ∨ 9 < ps) from by omega]
    · push_neg at h
      simp [show ¬ ps < 1 from by omega, show ¬ 9 < ps from by omega,
        show ¬ (ps < 1 ∨ 9 < ps) from by omega]
  · intro q hps
    unfold queryEuiccPageReq
    rw [hps]
    exact ⟨_, rfl⟩
  · intro q ps hps h1 h9
    unfold queryEuiccPageReq
    rw [hps]
    simp [show ¬ ps < 1 from by omega, show ¬ 9 < ps from by omega]

/-- Witness for C7 at concrete queries. -/
theorem queryEuiccPage_profileStatus_validation_witness :
    queryEuiccPageReq { profileStatus := some 0, iccid := some "89123" } =
      .error "Profile status must be between 1-9 (see ProfileStatus enum)" :=
  (queryEuiccPage_profileStatus_validation.1
    { profileStatus := some 0, iccid := some "89123" } 0 rfl).mpr (Or.inl (by decide))

/-- C6: `querySimDetail` fails with the validation error exactly when the
ICCID trims to the empty string (both `""` and `"   "` fail), and otherwise
sends the trimmed ICCID; `querySimMonthData` fails when its ICCID trims
empty, when its month trims empty, or when the trimmed month is not exactly
six digits — `2023-01` fails, `202301` passes, and `202313` is syntactically
accepted (no calendar check); trimmed values are what get sent. -/
theorem sim_validation_spec :
    (∀ iccid, querySimDetailReq iccid = .error "ICCID cannot be empty" ↔
      jsTrim iccid = "") ∧
    (∀ iccid, jsTrim iccid ≠ "" →
      querySimDetailReq iccid = .ok [("iccid", jstrS (jsTrim iccid))]) ∧
    (querySimDetailReq "" = .error "ICCID cannot be empty") ∧
    (querySimDetailReq "   " = .error "ICCID cannot be empty") ∧
    (∀ i m, querySimMonthDataReq i m = .error "ICCID cannot be empty" ↔
      jsTrim i = "") ∧
    (∀ i m, jsTrim i ≠ "" →
      (querySimMonthDataReq i m = .error "Month cannot be empty" ↔ jsTrim m = "")) ∧
    (∀ i m, jsTrim i ≠ "" → jsTrim m ≠ "" →
      (querySimMonthDataReq i m = .error "Month format must be yyyyMM (e.g., 202301)" ↔
        ¬ isSixDigits (jsTrim m) = true)) ∧
    (∀ i m, jsTrim i ≠ "" → isSixDigits (jsTrim m) = true →
      querySimMonthDataReq i m =
        .ok [("iccid", jstrS (jsTrim i)), ("month", jstrS (jsTrim m))]) ∧
    (querySimMonthDataReq "X" "2023-01" =
      .error "Month format must be yyyyMM (e.g., 202301)") ∧
    (querySimMonthDataReq "X" "202301" =
      .ok [("iccid", jstrS "X"), ("month", jstrS "202301")]) ∧
    (querySimMonthDataReq "X" "202313" =
      .ok [("iccid", jstrS "X"), ("month", jstrS "202313")]) := by
  refine ⟨?_, ?_, rfl, rfl, ?_, ?_, ?_, ?_, rfl, rfl, rfl⟩
  · intro iccid
    unfold querySimDetailReq
    by_cases h : jsTrim iccid = ""
    · simp [h]
    · have hne : iccid ≠ "" := fun he => h (by rw [he]; rfl)
      simp [h, hne]
  · intro iccid h
    have hne : iccid ≠ "" := fun he => h (by rw [he]; rfl)
    unfold querySimDetailReq
    simp [h, hne]
  · intro i m
    unfold querySimMonthDataReq
    by_cases h : jsTrim i = ""
    · simp [h]
    · have hne : i ≠ "" := fun he => h (by rw [he]; rfl)
      simp [h, hne]
      split_ifs <;> simp
  · intro i m hi
    have hine : i ≠ "" := fun he => hi (by rw [he]; rfl)
    unfold querySimMonthDataReq
    by_cases hm : jsTrim m = ""
    · simp [hi, hine, hm]
    · have hmne : m ≠ "" := fun he => hm (by rw [he]; rfl)
      simp [hi, hine, hm, hmne]
      by_cases hsix : isSixDigits (jsTrim m) = true <;> simp [hsix]
  · intro i m hi hm
    have hine : i ≠ "" := fun he => hi (by rw [he]; rfl)
    have hmne : m ≠ "" := fun he => hm (by rw [he]; rfl)
    unfold querySimMonthDataReq
    by_cases hsix : isSixDigits (jsTrim m) = true <;>
      simp [hi, hine, hm, hmne, hsix]
  · intro i m hi hsix
    have hine : i ≠ "" := fun he => hi (by rw [he]; rfl)
    have hm : jsTrim m ≠ "" := by
      intro he
      rw [he] at hsix
      cases hsix
    have hmne : m ≠ "" := fun he => hm (by rw [he]; rfl)
    unfold querySimMonthDataReq
    simp [hi, hine, hm, hmne, hsix]

/-- Witness for C6 at concrete inputs. -/
theorem sim_validation_spec_witness :
    querySimDetailReq " 8988 " = .ok [("iccid", jstrS (jsTrim " 8988 "))] ∧
    querySimMonthDataReq "X" " 202301 " =
      .ok [("iccid", jstrS (jsTrim "X")), ("month", jstrS (jsTrim " 202301 "))] :=
  ⟨sim_validation_spec.2.1 " 8988 " (by decide),
   sim_validation_spec.2.2.2.2.2.2.2.1 "X" " 202301 " (by decide) (by decide)⟩

/-- C3: an HTTP-success JSON-object body without a `code` field is wrapped
into the synthesized envelope with code 200, msg `OK` and the original body
as data; a body with a numeric `code` other than 200 fails with the API
error carrying that code and the body's `msg` (the placeholder
`Unknown error` when `msg` is absent); concretely, code 500 with msg `boom`
produces the message `Request failed: API Error [500]: boom`. -/
theorem makeRequest_envelope_spec :
    (∀ fs : List (List Nat × Json), jsonLookup keyCode (.jobj fs) = none →
      makeRequest (.okJson (.ok (.jobj fs))) =
        .ok (.jobj [(keyCode, .jnum 200), (keyMsg, .jstr (strBytes "OK")),
          (keyData, .jobj fs)])) ∧
    (∀ (fs : List (List Nat × Json)) (c : Int),
      jsonLookup keyCode (.jobj fs) = some (.jnum c) → c ≠ 200 →
      makeRequest (.okJson (.ok (.jobj fs))) =
        .error ("Request failed: " ++
          ("API Error [" ++ toString c ++ "]: " ++ msgOrUnknown (.jobj fs)))) ∧
    (∀ (fs : List (List Nat × Json)) (c : Int) (mbytes : List Nat),
      jsonLookup keyCode (.jobj fs) = some (.jnum c) → c ≠ 200 →
      jsonLookup keyMsg (.jobj fs) = some (.jstr mbytes) → mbytes ≠ [] →
      makeRequest (.okJson (.ok (.jobj fs))) =
        .error ("Request failed: " ++
          ("API Error [" ++ toString c ++ "]: " ++ bytesToString mbytes))) ∧
    (∀ (fs : List (List Nat × Json)) (c : Int),
      jsonLookup keyCode (.jobj fs) = some (.jnum c) → c ≠ 200 →
      jsonLookup keyMsg (.jobj fs) = none →
      makeRequest (.okJson (.ok (.jobj fs))) =
        .error ("Request failed: " ++
          ("API Error [" ++ toString c ++ "]: " ++ "Unknown error"))) ∧
    (makeRequest (.okJson (.ok (.jobj [(keyCode, .jnum 500), (keyMsg, jstrS "boom")]))) =
      .error "Request failed: API Error [500]: boom") := by
  have hfalsy : ∀ fs : List (List Nat × Json), jsFalsy (.jobj fs) = false :=
    fun _ => rfl
  have hobj : ∀ fs : List (List Nat × Json), isObjectLike (.jobj fs) = true :=
    fun _ => rfl
  refine ⟨?_, ?_, ?_, ?_, rfl⟩
  · intro fs h
    simp [makeRequest, classifyResponse, hfalsy, hobj, h]
  · intro fs c hcode hc
    simp [makeRequest, classifyResponse, hfalsy, hobj, hcode, hc, apiErrMsg]
  · intro fs c mbytes hcode hc hmsg hmb
    have hm : msgOrUnknown (.jobj fs) = bytesToString mbytes := by
      unfold msgOrUnknown
      rw [hmsg]
      have : jsFalsy (.jstr mbytes) = false := by
        cases mbytes with
        | nil => exact absurd rfl hmb
        | cons b t => rfl
      simp [this]
      rfl
    simp [makeRequest, classifyResponse, hfalsy, hobj, hcode, hc, apiErrMsg, hm]
  · intro fs c hcode hc hmsg
    have hm : msgOrUnknown (.jobj fs) = "Unknown error" := by
      unfold msgOrUnknown
      rw [hmsg]
    simp [makeRequest, classifyResponse, hfalsy, hobj, hcode, hc, apiErrMsg, hm]

/-- Witness for C3 at concrete bodies. -/
theorem makeRequest_envelope_spec_witness :
    makeRequest (.okJson (.ok (.jobj [(keyMsg, jstrS "hi")]))) =
      .ok (.jobj [(keyCode, .jnum 200), (keyMsg, .jstr (strBytes "OK")),
        (keyData, .jobj [(keyMsg, jstrS "hi")])]) ∧
    makeRequest (.okJson (.ok (.jobj [(keyCode, .jnum 404)]))) =
      .error ("Request failed: " ++
        ("API Error [" ++ toString (404 : Int) ++ "]: " ++ "Unknown error")) :=
  ⟨makeRequest_envelope_spec.1 [(keyMsg, jstrS "hi")] rfl,
   makeRequest_envelope_spec.2.2.2.1 [(keyCode, .jnum 404)] 404 rfl
     (by decide) rfl⟩

theorem utf8Bytes_ne_nil (c : Nat) : utf8Bytes c ≠ [] := by
  unfold utf8Bytes
  split_ifs <;> simp

theorem strBytes_eq_nil_iff (s : String) : strBytes s = [] ↔ s = "" := by
  constructor
  · intro h
    cases s with
    | mk data =>
      cases data with
      | nil => rfl
      | cons c t =>
        exfalso
        simp only [strBytes, List.flatMap_cons, List.append_eq_nil] at h
        exact utf8Bytes_ne_nil _ h.1
  · intro h
    rw [h]
    rfl

theorem jstrS_eq_empty_iff (s : String) : jstrS s = jstrS "" ↔ s = "" := by
  simp only [jstrS, Json.jstr.injEq]
  rw [show strBytes "" = [] from rfl]
  exact strBytes_eq_nil_iff s

theorem mem_addIfString_iff (key : String) (o : Option String) (k : String) (v : Json) :
    ((k, v) ∈ addIfString key o) ↔ ∃ s, o = some s ∧ s ≠ "" ∧ k = key ∧ v = jstrS s := by
  cases o with
  | none => simp [addIfString]
  | some s =>
      by_cases hs : s = "" <;> simp [addIfString, hs, Prod.ext_iff]

theorem mem_addIfNum_iff (key : String) (o : Option Int) (k : String) (v : Json) :
    ((k, v) ∈ addIfNum key o) ↔ ∃ n, o = some n ∧ k = key ∧ v = Json.jnum n := by
  cases o with
  | none => simp [addIfNum]
  | some n => simp [addIfNum, Prod.ext_iff]

theorem key_mem_addIfString_iff (key k : String) (o : Option String) :
    (k ∈ (addIfString key o).map Prod.fst) ↔ k = key ∧ ∃ s, o = some s ∧ s ≠ "" := by
  cases o with
  | none => simp [addIfString]
  | some s =>
      by_cases hs : s = "" <;> simp [addIfString, hs, and_comm]

theorem key_mem_addIfNum_iff (key k : String) (o : Option Int) :
    (k ∈ (addIfNum key o).map Prod.fst) ↔ k = key ∧ ∃ n, o = some n := by
  cases o with
  | none => simp [addIfNum]
  | some n => simp [addIfNum]

/-- C4: the body `querySimList` sends contains `pageNum` (default 1) and
`pageSize` equal to the requested size capped at 1000 (default 10; 5000 is
capped to exactly 1000), and exactly those optional filter keys whose
supplied value is defined and non-empty: a supplied non-empty filter is
forwarded with its value, an absent or empty filter contributes no key, no
key is ever sent with a null or empty-string value, and with no optional
filters the body is exactly `pageNum` and `pageSize`. -/
theorem querySimList_body_spec (q : SIMListQuery) :
    ((querySimListBody q).take 2 =
      [("pageNum", Json.jnum (q.pageNum.getD 1)),
       ("pageSize", Json.jnum (min (q.pageSize.getD 10 : Int) 1000))]) ∧
    (querySimListBody {} = [("pageNum", Json.jnum 1), ("pageSize", Json.jnum 10)]) ∧
    (querySimListBody { pageSize := some 5000 } =
      [("pageNum", Json.jnum 1), ("pageSize", Json.jnum 1000)]) ∧
    (∀ k v, (k, v) ∈ querySimListBody q → v ≠ Json.jnull ∧ v ≠ jstrS "") ∧
    (∀ s, q.enterpriseDataPlan = some s → s ≠ "" →
      ("enterpriseDataPlan", jstrS s) ∈ querySimListBody q) ∧
    ("enterpriseDataPlan" ∈ (querySimListBody q).map Prod.fst →
      ∃ s, q.enterpriseDataPlan = some s ∧ s ≠ "") ∧
    (∀ s, q.expirationTimeStart = some s → s ≠ "" →
      ("expirationTimeStart", jstrS s) ∈ querySimListBody q) ∧
    ("expirationTimeStart" ∈ (querySimListBody q).map Prod.fst →
      ∃ s, q.expirationTimeStart = some s ∧ s ≠ "") ∧
    (∀ s, q.expirationTimeEnd = some s → s ≠ "" →
      ("expirationTimeEnd", jstrS s) ∈ querySimListBody q) ∧
    ("expirationTimeEnd" ∈ (querySimListBody q).map Prod.fst →
      ∃ s, q.expirationTimeEnd = some s ∧ s ≠ "") ∧
    (∀ s, q.iccidStart = some s → s ≠ "" →
      ("iccidStart", jstrS s) ∈ querySimListBody q) ∧
    ("iccidStart" ∈ (querySimListBody q).map Prod.fst →
      ∃ s, q.iccidStart = some s ∧ s ≠ "") ∧
    (∀ s, q.iccidEnd = some s → s ≠ "" →
      ("iccidEnd", jstrS s) ∈ querySimListBody q) ∧
    ("iccidEnd" ∈ (querySimListBody q).map Prod.fst →
      ∃ s, q.iccidEnd = some s ∧ s ≠ "") ∧
    (∀ s, q.label = some s → s ≠ "" →
      ("label", jstrS s) ∈ querySimListBody q) ∧
    ("label" ∈ (querySimListBody q).map Prod.fst →
      ∃ s, q.label = some s ∧ s ≠ "") ∧
    (∀ n, q.simState = some n → ("simState", Json.jnum n) ∈ querySimListBody q) ∧
    ("simState" ∈ (querySimListBody q).map Prod.fst → ∃ n, q.simState = some n) ∧
    (∀ s, q.simType = some s → s ≠ "" →
      ("simType", jstrS s) ∈ querySimListBody q) ∧
    ("simType" ∈ (querySimListBody q).map Prod.fst →
      ∃ s, q.simType = some s ∧ s ≠ "") := by
  refine ⟨by unfold querySimListBody; rfl, rfl, rfl, ?_, ?_, ?_, ?_, ?_, ?_,
    ?_, ?_, ?_, ?_, ?_, ?_, ?_, ?_, ?_, ?_, ?_⟩
  · intro k v hv
    simp only [querySimListBody, List.append_assoc, List.cons_append,
      List.nil_append, List.mem_cons, List.mem_append] at hv
    have hval : (∃ n : Int, v = Json.jnum n) ∨ (∃ s, v = jstrS s ∧ s ≠ "") := by
      rcases hv with h | h | h | h | h | h | h | h | h | h
      · exact Or.inl ⟨_, congrArg Prod.snd h⟩
      · exact Or.inl ⟨_, congrArg Prod.snd h⟩
      · obtain ⟨s, _, hs, _, h⟩ := (mem_addIfString_iff _ _ _ _).mp h
        exact Or.inr ⟨s, h, hs⟩
      · obtain ⟨s, _, hs, _, h⟩ := (mem_addIfString_iff _ _ _ _).mp h
        exact Or.inr ⟨s, h, hs⟩
      · obtain ⟨s, _, hs, _, h⟩ := (mem_addIfString_iff _ _ _ _).mp h
        exact Or.inr ⟨s, h, hs⟩
      · obtain ⟨s, _, hs, _, h⟩ := (mem_addIfString_iff _ _ _ _).mp h
        exact Or.inr ⟨s, h, hs⟩
      · obtain ⟨s, _, hs, _, h⟩ := (mem_addIfString_iff _ _ _ _).mp h
        exact Or.inr ⟨s, h, hs⟩
      · obtain ⟨s, _, hs, _, h⟩ := (mem_addIfString_iff _ _ _ _).mp h
        exact Or.inr ⟨s, h, hs⟩
      · obtain ⟨n, _, _, h⟩ := (mem_addIfNum_iff _ _ _ _).mp h
        exact Or.inl ⟨n, h⟩
      · obtain ⟨s, _, hs, _, h⟩ := (mem_addIfString_iff _ _ _ _).mp h
        exact Or.inr ⟨s, h, hs⟩
    rcases hval with ⟨n, hn⟩ | ⟨s, hs, hne⟩
    · subst hn
      exact ⟨(fun hc => by cases hc), (fun hc => by cases hc)⟩
    · subst hs
      exact ⟨(fun hc => by cases hc), (fun hc => hne ((jstrS_eq_empty_iff s).mp hc))⟩
  all_goals
    (first
      | (intro s hq hs
         simp [querySimListBody, List.mem_append, mem_addIfString_iff,
           mem_addIfNum_iff, hq, hs])
      | (intro n hq
         simp [querySimListBody, List.mem_append, mem_addIfString_iff,
           mem_addIfNum_iff, hq])
      | (intro hk
         simp only [querySimListBody, List.map_cons, List.map_append,
           List.mem_cons, List.mem_append, key_mem_addIfString_iff,
           key_mem_addIfNum_iff] at hk
         simp at hk
         tauto))

/-- Witness for C4 at a concrete query. -/
theorem querySimList_body_spec_witness :
    ("label", jstrS "fleet") ∈
      querySimListBody { label := some "fleet", simState := some 6 } ∧
    ("simState", Json.jnum 6) ∈
      querySimListBody { label := some "fleet", simState := some 6 } :=
  ⟨(querySimList_body_spec { label := some "fleet", simState := some 6 }).2.2.2.2.2.2.2.2.2.2.2.2.2.2.1
      "fleet" rfl (by decide),
   (querySimList_body_spec { label := some "fleet", simState := some 6 }).2.2.2.2.2.2.2.2.2.2.2.2.2.2.2.2.1
      6 rfl⟩

theorem fdGo_step (fuel ui : Nat) (q : Rat) (h1 : 1024 ≤ q) (h2 : ui < 4) :
    fdGo (fuel + 1) q ui = fdGo fuel (q / 1024) (ui + 1) := by
  simp [fdGo, h1, h2]

theorem fdGo_stop (fuel ui : Nat) (q : Rat) (h : ¬ 1024 ≤ q ∨ ¬ ui < 4) :
    fdGo fuel q ui = (q, ui) := by
  cases fuel with
  | zero => rfl
  | succ f =>
      rcases h with h | h <;> simp [fdGo, h]

theorem scaled_le_iff (n k : Nat) : (1024 : Rat) ≤ (n : Rat) / 1024 ^ k ↔ 1024 ^ (k + 1) ≤ n := by
  rw [le_div_iff₀ (by positivity : (0 : Rat) < 1024 ^ k)]
  have h : (1024 : Rat) * 1024 ^ k = ((1024 ^ (k + 1) : Nat) : Rat) := by
    push_cast
    ring
  rw [h, Nat.cast_le]

theorem div_1024_succ (n k : Nat) : (n : Rat) / 1024 ^ k / 1024 = (n : Rat) / 1024 ^ (k + 1) := by
  rw [div_div, ← pow_succ]

/-- C9: `formatDataUsage` returns `0 B` for 0, `1023 B` for 1023, `1.00 KB`
for 1024 and `1.00 MB` for 1048576; for every nonzero byte count it scales by
repeated division by 1024 through B, KB, MB, GB, TB, rounding to the nearest
integer in the B unit and printing exactly two decimals for larger units
(the specification-side formatter `specFormatBytes`). -/
theorem formatDataUsage_spec :
    formatDataUsage 0 = "0 B" ∧
    formatDataUsage 1023 = "1023 B" ∧
    formatDataUsage 1024 = "1.00 KB" ∧
    formatDataUsage 1048576 = "1.00 MB" ∧
    ∀ n : Nat, n ≠ 0 → formatDataUsage n = specFormatBytes n := by
  refine ⟨rfl, ?_, ?_, ?_, ?_⟩
  · have hgo : fdGo 4 ((1023 : Nat) : Rat) 0 = (((1023 : Nat) : Rat), 0) :=
      fdGo_stop _ _ _ (Or.inl (by norm_num))
    unfold formatDataUsage
    rw [if_neg (by norm_num), hgo]
    norm_num [jsRound]
    rfl
  · have hgo : fdGo 4 ((1024 : Nat) : Rat) 0 = (((1024 : Nat) : Rat) / 1024, 1) := by
      rw [fdGo_step _ _ _ (by norm_num) (by omega)]
      exact fdGo_stop _ _ _ (Or.inl (by norm_num))
    unfold formatDataUsage
    rw [if_neg (by norm_num), hgo]
    norm_num [toFixed2]
    rfl
  · have hgo : fdGo 4 ((1048576 : Nat) : Rat) 0 =
        (((1048576 : Nat) : Rat) / 1024 / 1024, 2) := by
      rw [fdGo_step _ _ _ (by norm_num) (by omega)]
      rw [fdGo_step _ _ _ (by norm_num) (by omega)]
      exact fdGo_stop _ _ _ (Or.inl (by norm_num))
    unfold formatDataUsage
    rw [if_neg (by norm_num), hgo]
    norm_num [toFixed2]
    rfl
  intro n hn
  have hq0 : (n : Rat) = (n : Rat) / 1024 ^ 0 := by simp
  rcases Nat.lt_or_ge n 1024 with h1 | h1
  · have hgo : fdGo 4 (n : Rat) 0 = ((n : Rat), 0) := by
      refine fdGo_stop _ _ _ (Or.inl ?_)
      rw [hq0, scaled_le_iff]
      omega
    unfold formatDataUsage specFormatBytes
    rw [if_neg hn, if_neg hn]
    have hk : specScaleCount n = 0 := by
      unfold specScaleCount
      rw [if_pos h1]
    rw [hk, hgo]
    norm_num
    rw [String.append_assoc]
    rfl
  · rcases Nat.lt_or_ge n (1024 ^ 2) with h2 | h2
    · have hgo : fdGo 4 (n : Rat) 0 = ((n : Rat) / 1024 ^ 1, 1) := by
        rw [fdGo_step _ _ _ (by rw [hq0, scaled_le_iff]; simpa using h1) (by omega)]
        rw [show (n : Rat) / 1024 = (n : Rat) / 1024 ^ 1 by rw [pow_one]]
        exact fdGo_stop _ _ _ (Or.inl (by rw [scaled_le_iff]; omega))
      unfold formatDataUsage specFormatBytes
      rw [if_neg hn, if_neg hn]
      have hk : specScaleCount n = 1 := by
        unfold specScaleCount
        rw [if_neg (by omega), if_pos h2]
      rw [hk, hgo]
      norm_num
    · rcases Nat.lt_or_ge n (1024 ^ 3) with h3 | h3
      · have hgo : fdGo 4 (n : Rat) 0 = ((n : Rat) / 1024 ^ 2, 2) := by
          rw [fdGo_step _ _ _ (by rw [hq0, scaled_le_iff]; simpa using h1) (by omega)]
          rw [show (n : Rat) / 1024 = (n : Rat) / 1024 ^ 1 by rw [pow_one]]
          rw [fdGo_step _ _ _ (by rw [scaled_le_iff]; omega) (by omega)]
          rw [div_1024_succ]
          exact fdGo_stop _ _ _ (Or.inl (by rw [scaled_le_iff]; omega))
        unfold formatDataUsage specFormatBytes
        rw [if_neg hn, if_neg hn]
        have hk : specScaleCount n = 2 := by
          unfold specScaleCount
          rw [if_neg (by omega), if_neg (by omega), if_pos h3]
        rw [hk, hgo]
        norm_num
      · rcases Nat.lt_or_ge n (1024 ^ 4) with h4 | h4
        · have hgo : fdGo 4 (n : Rat) 0 = ((n : Rat) / 1024 ^ 3, 3) := by
            rw [fdGo_step _ _ _ (by rw [hq0, scaled_le_iff]; simpa using h1) (by omega)]
            rw [show (n : Rat) / 1024 = (n : Rat) / 1024 ^ 1 by rw [pow_one]]
            rw [fdGo_step _ _ _ (by rw [scaled_le_iff]; omega) (by omega)]
            rw [div_1024_succ]
            rw [fdGo_step _ _ _ (by rw [scaled_le_iff]; omega) (by omega)]
            rw [div_1024_succ]
            exact fdGo_stop _ _ _ (Or.inl (by rw [scaled_le_iff]; omega))
          unfold formatDataUsage specFormatBytes
          rw [if_neg hn, if_neg hn]
          have hk : specScaleCount n = 3 := by
            unfold specScaleCount
            rw [if_neg (by omega), if_neg (by omega), if_neg (by omega), if_pos h4]
          rw [hk, hgo]
          norm_num
        · have hgo : fdGo 4 (n : Rat) 0 = ((n : Rat) / 1024 ^ 4, 4) := by
            rw [fdGo_step _ _ _ (by rw [hq0, scaled_le_iff]; simpa using h1) (by omega)]
            rw [show (n : Rat) / 1024 = (n : Rat) / 1024 ^ 1 by rw [pow_one]]
            rw [fdGo_step _ _ _ (by rw [scaled_le_iff]; omega) (by omega)]
            rw [div_1024_succ]
            rw [fdGo_step _ _ _ (by rw [scaled_le_iff]; omega) (by omega)]
            rw [div_1024_succ]
            rw [fdGo_step _ _ _ (by rw [scaled_le_iff]; omega) (by omega)]
            rw [div_1024_succ]
            exact fdGo_stop _ _ _ (Or.inr (by omega))
          unfold formatDataUsage specFormatBytes
          rw [if_neg hn, if_neg hn]
          have hk : specScaleCount n = 4 := by
            unfold specScaleCount
            rw [if_neg (by omega), if_neg (by omega), if_neg (by omega),
              if_neg (by omega)]
          rw [hk, hgo]
          norm_num

/-- Witness for C9 at a concrete nonzero input. -/
theorem formatDataUsage_spec_witness :
    (1536 : Nat) ≠ 0 ∧ formatDataUsage 1536 = specFormatBytes 1536 :=
  ⟨by decide, formatDataUsage_spec.2.2.2.2 1536 (by decide)⟩

/-- C5: `parseCursor` fails with the single `Invalid cursor format` error
exactly when the decode pipeline (forgiving base64 decode, which never
throws in Node, then JSON parse) fails to produce a value: both example
tokens fail, a token whose decoded bytes parse never raises the error, and
the error is distinguishable from every API-side failure, whose messages all
carry the `Request failed: ` prefix. -/
theorem parseCursor_invalid_spec :
    (parseCursor (strBytes "not-valid-base64!!") = .error invalidCursorMsg) ∧
    (parseCursor (base64Encode (strBytes "not json")) = .error invalidCursorMsg) ∧
    (∀ c, parseCursor c = .error invalidCursorMsg ↔
      jsonParse (base64Decode c) = none) ∧
    (∀ c v, jsonParse (base64Decode c) = some v → parseCursor c = .ok v) ∧
    (∀ r m, makeRequest r = .error m → m ≠ invalidCursorMsg) := by
  refine ⟨rfl, rfl, ?_, ?_, ?_⟩
  · intro c
    unfold parseCursor
    cases h : jsonParse (base64Decode c) <;> simp
  · intro c v h
    unfold parseCursor
    rw [h]
  · intro r m h
    obtain ⟨inner, -, hm⟩ := makeRequest_error_shape r m h
    subst hm
    intro hc
    have hd := congrArg String.data hc
    rw [String.data_append] at hd
    have hhead := congrArg (fun l => l.headD 'x') hd
    simp [invalidCursorMsg] at hhead

/-- Witness for C5: a token that decodes and parses is returned as-is. -/
theorem parseCursor_invalid_spec_witness :
    parseCursor (base64Encode (strBytes "3")) = .ok (.jnum 3) :=
  parseCursor_invalid_spec.2.2.2.1 (base64Encode (strBytes "3")) (.jnum 3) rfl

theorem b64Val_b64Char (n : Nat) (h : n < 64) : b64Val (b64Char n) = some n := by
  interval_cases n <;> decide

theorem b64Val_pad : b64Val 61 = none := by decide

theorem base64_roundtrip_fuel : ∀ (fuel : Nat) (bs : List Nat), bs.length ≤ fuel →
    (∀ b ∈ bs, b < 256) → base64Decode (base64Encode bs) = bs := by
  intro fuel
  induction fuel with
  | zero =>
      intro bs hl _
      rw [List.length_eq_zero.mp (Nat.le_zero.mp hl)]
      rfl
  | succ f ih =>
      intro bs hl hb
      rcases bs with _ | ⟨b1, _ | ⟨b2, _ | ⟨b3, rest⟩⟩⟩
      · rfl
      · have h1 : b1 < 256 := hb b1 (by simp)
        have e1 : b64Val (b64Char (b1 / 4)) = some (b1 / 4) :=
          b64Val_b64Char _ (by omega)
        have e2 : b64Val (b64Char (b1 % 4 * 16)) = some (b1 % 4 * 16) :=
          b64Val_b64Char _ (by omega)
        simp only [base64Encode, base64Decode, List.filterMap_cons, e1, e2,
          b64Val_pad, List.filterMap_nil, decodeVals]
        simp only [List.cons.injEq, and_true]
        omega
      · have h1 : b1 < 256 := hb b1 (by simp)
        have h2 : b2 < 256 := hb b2 (by simp)
        have e1 : b64Val (b64Char (b1 / 4)) = some (b1 / 4) :=
          b64Val_b64Char _ (by omega)
        have e2 : b64Val (b64Char (b1 % 4 * 16 + b2 / 16)) =
            some (b1 % 4 * 16 + b2 / 16) := b64Val_b64Char _ (by omega)
        have e3 : b64Val (b64Char (b2 % 16 * 4)) = some (b2 % 16 * 4) :=
          b64Val_b64Char _ (by omega)
        simp only [base64Encode, base64Decode, List.filterMap_cons, e1, e2, e3,
          b64Val_pad, List.filterMap_nil, decodeVals]
        simp only [List.cons.injEq, and_true]
        constructor
        · omega
        · omega
      · have h1 : b1 < 256 := hb b1 (by simp)
        have h2 : b2 < 256 := hb b2 (by simp)
        have h3 : b3 < 256 := hb b3 (by simp)
        have e1 : b64Val (b64Char (b1 / 4)) = some (b1 / 4) :=
          b64Val_b64Char _ (by omega)
        have e2 : b64Val (b64Char (b1 % 4 * 16 + b2 / 16)) =
            some (b1 % 4 * 16 + b2 / 16) := b64Val_b64Char _ (by omega)
        have e3 : b64Val (b64Char (b2 % 16 * 4 + b3 / 64)) =
            some (b2 % 16 * 4 + b3 / 64) := b64Val_b64Char _ (by omega)
        have e4 : b64Val (b64Char (b3 % 64)) = some (b3 % 64) :=
          b64Val_b64Char _ (by omega)
        have hrest := ih rest (by simp at hl; omega)
          (fun b hbm => hb b (by simp [hbm]))
        simp only [base64Encode, base64Decode, List.filterMap_cons, e1, e2, e3, e4,
          decodeVals] at hrest ⊢
        rw [hrest]
        simp only [List.cons.injEq, and_true]
        refine ⟨by omega, by omega, by omega⟩

theorem base64_roundtrip (bs : List Nat) (hb : ∀ b ∈ bs, b < 256) :
    base64Decode (base64Encode bs) = bs :=
  base64_roundtrip_fuel bs.length bs le_rfl hb

/-- Is the first byte a decimal digit? -/
def headDigit : List Nat → Bool
  | [] => false
  | b :: _ => isDigitByte b

theorem natDigits_bounds (n : Nat) : ∀ d ∈ natDigits n, 48 ≤ d ∧ d ≤ 57 := by
  unfold natDigits
  split
  · simp
  · intro d hd
    rw [List.mem_reverse, List.mem_map] at hd
    obtain ⟨x, hx, rfl⟩ := hd
    have : x < 10 := Nat.digits_lt_base (by norm_num) hx
    omega

theorem natDigits_ne_nil (n : Nat) : natDigits n ≠ [] := by
  unfold natDigits
  split
  · simp
  · simp [Nat.digits_ne_nil_iff_ne_zero, *]

theorem digitsVal_append_singleton (xs : List Nat) (d : Nat) :
    digitsVal (xs ++ [d]) = digitsVal xs * 10 + (d - 48) := by
  unfold digitsVal
  rw [List.foldl_append]
  rfl

theorem digitsVal_natDigits (n : Nat) : digitsVal (natDigits n) = n := by
  unfold natDigits
  split
  · simp [digitsVal, *]
  · have key : ∀ L : List Nat, digitsVal ((L.map (· + 48)).reverse) = Nat.ofDigits 10 L := by
      intro L
      induction L with
      | nil => rfl
      | cons d T ihT =>
          rw [List.map_cons, List.reverse_cons, digitsVal_append_singleton, ihT,
            Nat.ofDigits_cons]
          omega
    rw [key]
    exact_mod_cast Nat.ofDigits_digits 10 n

theorem takeDigits_append (ds rest : List Nat)
    (hds : ∀ d ∈ ds, isDigitByte d = true) (hrest : headDigit rest = false) :
    takeDigits (ds ++ rest) = (ds, rest) := by
  induction ds with
  | nil =>
      cases rest with
      | nil => rfl
      | cons b t =>
          simp only [headDigit] at hrest
          simp [takeDigits, hrest]
  | cons d t iht =>
      have hd : isDigitByte d = true := hds d (by simp)
      have ht : ∀ x ∈ t, isDigitByte x = true := fun x hx => hds x (by simp [hx])
      simp [takeDigits, hd, iht ht]

theorem isDigitByte_of_bounds (d : Nat) (h : 48 ≤ d ∧ d ≤ 57) : isDigitByte d = true := by
  simp [isDigitByte]
  omega

theorem parseNumberBody_intDigits (n : Int) (rest : List Nat)
    (hrest : headDigit rest = false) :
    parseNumberBody (intDigits n ++ rest) = some (n, rest) := by
  have habs : ∀ d ∈ natDigits n.natAbs, isDigitByte d = true :=
    fun d hd => isDigitByte_of_bounds d (natDigits_bounds _ d hd)
  have htake : takeDigits (natDigits n.natAbs ++ rest) = (natDigits n.natAbs, rest) :=
    takeDigits_append _ _ habs hrest
  unfold intDigits
  split
  · rename_i hneg
    rw [List.cons_append]
    simp only [parseNumberBody, if_pos rfl, htake]
    simp [natDigits_ne_nil n.natAbs, digitsVal_natDigits, abs_of_neg hneg]
  · rename_i hpos
    cases hd : natDigits n.natAbs with
    | nil => exact absurd hd (natDigits_ne_nil _)
    | cons d ds =>
        have hdb : 48 ≤ d ∧ d ≤ 57 := natDigits_bounds _ d (by rw [hd]; simp)
        rw [List.cons_append, parseNumberBody.eq_2,
          if_neg (by omega : ¬ d = 45)]
        rw [show d :: (ds ++ rest) = (d :: ds) ++ rest from rfl, ← hd, htake]
        have hcast : (n.natAbs : Int) = n := by omega
        simp [natDigits_ne_nil n.natAbs, digitsVal_natDigits, hcast]

set_option maxHeartbeats 2000000 in
theorem parseStringBody_escape (s : List Nat) (rest : List Nat)
    (h : ∀ b ∈ s, b < 256) :
    parseStringBody (s.flatMap escapeByte ++ 34 :: rest) = some (s, rest) := by
  induction s with
  | nil => simp [parseStringBody]
  | cons b t iht =>
      have hb : b < 256 := h b (by simp)
      have ht : ∀ x ∈ t, x < 256 := fun x hx => h x (by simp [hx])
      have IH := iht ht
      rw [List.flatMap_cons, List.append_assoc]
      by_cases h34 : b = 34
      · subst h34
        rw [show escapeByte 34 = [92, 34] from rfl]
        simp only [List.cons_append, List.nil_append]
        rw [parseStringBody.eq_2]
        norm_num
        rw [parseEscape.eq_1, IH]
        rfl
      by_cases h92 : b = 92
      · subst h92
        rw [show escapeByte 92 = [92, 92] from rfl]
        simp only [List.cons_append, List.nil_append]
        rw [parseStringBody.eq_2]
        norm_num
        rw [parseEscape.eq_2, IH]
        rfl
      by_cases h8 : b = 8
      · subst h8
        rw [show escapeByte 8 = [92, 98] from rfl]
        simp only [List.cons_append, List.nil_append]
        rw [parseStringBody.eq_2]
        norm_num
        rw [parseEscape.eq_4, IH]
        rfl
      by_cases h9 : b = 9
      · subst h9
        rw [show escapeByte 9 = [92, 116] from rfl]
        simp only [List.cons_append, List.nil_append]
        rw [parseStringBody.eq_2]
        norm_num
        rw [parseEscape.eq_5, IH]
        rfl
      by_cases h10 : b = 10
      · subst h10
        rw [show escapeByte 10 = [92, 110] from rfl]
        simp only [List.cons_append, List.nil_append]
        rw [parseStringBody.eq_2]
        norm_num
        rw [parseEscape.eq_6, IH]
        rfl
      by_cases h12 : b = 12
      · subst h12
        rw [show escapeByte 12 = [92, 102] from rfl]
        simp only [List.cons_append, List.nil_append]
        rw [parseStringBody.eq_2]
        norm_num
        rw [parseEscape.eq_7, IH]
        rfl
      by_cases h13 : b = 13
      · subst h13
        rw [show escapeByte 13 = [92, 114] from rfl]
        simp only [List.cons_append, List.nil_append]
        rw [parseStringBody.eq_2]
        norm_num
        rw [parseEscape.eq_8, IH]
        rfl
      by_cases hctl : b < 32
      · have hesc : escapeByte b =
            [92, 117, 48, 48, 48 + b / 16,
             if b % 16 < 10 then 48 + b % 16 else 87 + b % 16] := by
          simp [escapeByte, h34, h92, h8, h9, h10, h12, h13, hctl]
        have e3 : hexVal (48 + b / 16) = some (b / 16) := by
          unfold hexVal
          rw [if_pos ⟨by omega, by omega⟩]
          congr 1
          omega
        have e4 : hexVal (if b % 16 < 10 then 48 + b % 16 else 87 + b % 16) =
            some (b % 16) := by
          by_cases hlo : b % 16 < 10
          · rw [if_pos hlo]
            unfold hexVal
            rw [if_pos ⟨by omega, by omega⟩]
            congr 1
            omega
          · rw [if_neg hlo]
            unfold hexVal
            rw [if_neg (by omega), if_pos ⟨by omega, by omega⟩]
            congr 1
            omega
        have hbyte : utf8Bytes (((0 * 16 + 0) * 16 + b / 16) * 16 + b % 16) = [b] := by
          rw [show ((0 * 16 + 0) * 16 + b / 16) * 16 + b % 16 = b from by omega]
          unfold utf8Bytes
          rw [if_pos (by omega)]
        rw [hesc]
        simp only [List.cons_append, List.nil_append]
        rw [parseStringBody.eq_2]
        norm_num
        rw [parseEscape.eq_9]
        simp only [show hexVal 48 = some 0 from rfl, e3, e4,
          Option.bind_eq_bind, Option.some_bind]
        rw [IH]
        simp only [Option.map_some']
        rw [hbyte]
        simp
      · have hesc : escapeByte b = [b] := by
          simp [escapeByte, h34, h92, h8, h9, h10, h12, h13, hctl]
        rw [hesc]
        simp only [List.cons_append, List.nil_append]
        rw [parseStringBody.eq_2]
        rw [if_neg h34, if_neg h92, if_neg hctl, IH]
        rfl

theorem intDigits_ne_nil (n : Int) : intDigits n ≠ [] := by
  unfold intDigits
  split
  · simp
  · exact natDigits_ne_nil _

theorem intDigits_head (n : Int) (b : Nat) (bs : List Nat)
    (h : intDigits n = b :: bs) : b = 45 ∨ (48 ≤ b ∧ b ≤ 57) := by
  unfold intDigits at h
  split at h
  · exact Or.inl (List.cons.injEq .. ▸ h).1.symm
  · exact Or.inr (natDigits_bounds _ b (by rw [h]; simp))

theorem skipWs_cons_of_not_ws (b : Nat) (X : List Nat) (h : isWsByte b = false) :
    skipWs (b :: X) = b :: X := by
  simp [skipWs, h]

theorem parseValue_scalar (v : Json) (hv : isScalar v = true)
    (hbytes : scalarBytesOk v = true) (fuel : Nat) (rest : List Nat)
    (hrest : headDigit rest = false) :
    parseValue (fuel + 1) (jsonStringify v ++ rest) = some (v, rest) := by
  cases v with
  | jnull =>
      rw [jsonStringify.eq_1]
      simp only [List.cons_append, List.nil_append]
      rw [parseValue.eq_2, skipWs_cons_of_not_ws _ _ (by decide)]
      norm_num
  | jbool b =>
      cases b
      · rw [jsonStringify.eq_3]
        simp only [List.cons_append, List.nil_append]
        rw [parseValue.eq_2, skipWs_cons_of_not_ws _ _ (by decide)]
        norm_num
      · rw [jsonStringify.eq_2]
        simp only [List.cons_append, List.nil_append]
        rw [parseValue.eq_2, skipWs_cons_of_not_ws _ _ (by decide)]
        norm_num
  | jnum n =>
      rw [jsonStringify.eq_4]
      cases hd : intDigits n with
      | nil => exact absurd hd (intDigits_ne_nil n)
      | cons b bs =>
          have hbr : b = 45 ∨ (48 ≤ b ∧ b ≤ 57) := intDigits_head n b bs hd
          rw [List.cons_append, parseValue.eq_2,
            skipWs_cons_of_not_ws _ _ (by unfold isWsByte; simp; omega)]
          simp only []
          rw [if_neg (by omega : ¬ b = 34), if_neg (by omega : ¬ b = 91),
            if_neg (by omega : ¬ b = 123), if_neg (by omega : ¬ b = 110),
            if_neg (by omega : ¬ b = 116), if_neg (by omega : ¬ b = 102)]
          rw [← List.cons_append, ← hd, parseNumberBody_intDigits n rest hrest]
          rfl
  | jstr s =>
      have hs : ∀ b ∈ s, b < 256 := by
        intro b hbm
        have := (List.all_eq_true.mp hbytes) b hbm
        simpa using this
      rw [jsonStringify.eq_5]
      have hshape : escapeString s ++ rest =
          34 :: (s.flatMap escapeByte ++ (34 :: rest)) := by
        unfold escapeString
        simp
      rw [hshape]
      rw [parseValue.eq_2, skipWs_cons_of_not_ws _ _ (by decide)]
      simp only [if_true]
      rw [parseStringBody_escape s rest hs]
      rfl
  | jarr xs => simp [isScalar] at hv
  | jobj fs => simp [isScalar] at hv

set_option maxHeartbeats 2000000 in
theorem parseMembers_fields :
    ∀ (fs : List (List Nat × Json)) (fuel : Nat) (rest : List Nat),
      fs ≠ [] →
      (∀ kv ∈ fs, isScalar kv.2 = true) →
      (∀ kv ∈ fs, (∀ b ∈ kv.1, b < 256) ∧ scalarBytesOk kv.2 = true) →
      fs.length + 1 ≤ fuel →
      parseMembers fuel (stringifyFields fs ++ 125 :: rest) = some (fs, rest) := by
  intro fs
  induction fs with
  | nil => exact fun fuel rest hne _ _ _ => absurd rfl hne
  | cons kv fs' ih =>
      obtain ⟨k, v⟩ := kv
      intro fuel rest hne hsc hby hfuel
      have hvsc : isScalar v = true := hsc (k, v) (by simp)
      have hkb : ∀ b ∈ k, b < 256 := (hby (k, v) (by simp)).1
      have hvb : scalarBytesOk v = true := (hby (k, v) (by simp)).2
      have hfl : fs'.length + 2 ≤ fuel := by
        simpa using hfuel
      obtain ⟨f, rfl⟩ : ∃ f, fuel = f + 1 := ⟨fuel - 1, by omega⟩
      obtain ⟨g, rfl⟩ : ∃ g, f = g + 1 := ⟨f - 1, by omega⟩
      cases fs' with
      | nil =>
          rw [stringifyFields.eq_2]
          have hshape : (escapeString k ++ 58 :: jsonStringify v) ++ 125 :: rest =
              34 :: (k.flatMap escapeByte ++
                34 :: (58 :: (jsonStringify v ++ 125 :: rest))) := by
            unfold escapeString
            simp
          rw [hshape, parseMembers.eq_2, skipWs_cons_of_not_ws _ _ (by decide)]
          simp only []
          rw [parseStringBody_escape k _ hkb]
          simp only [Option.bind_eq_bind, Option.some_bind]
          rw [skipWs_cons_of_not_ws _ _ (by decide)]
          simp only []
          rw [parseValue_scalar v hvsc hvb g _ (by simp [headDigit, isDigitByte])]
          simp only [Option.bind_eq_bind, Option.some_bind]
          rw [skipWs_cons_of_not_ws _ _ (by decide)]
      | cons kv2 fs'' =>
          rw [stringifyFields.eq_3 _ _ _ (by simp)]
          have hshape : (escapeString k ++
              58 :: jsonStringify v ++ 44 :: stringifyFields (kv2 :: fs'')) ++
                125 :: rest =
              34 :: (k.flatMap escapeByte ++
                34 :: (58 :: (jsonStringify v ++
                  44 :: (stringifyFields (kv2 :: fs'') ++ 125 :: rest)))) := by
            unfold escapeString
            simp
          rw [hshape, parseMembers.eq_2, skipWs_cons_of_not_ws _ _ (by decide)]
          simp only []
          rw [parseStringBody_escape k _ hkb]
          simp only [Option.bind_eq_bind, Option.some_bind]
          rw [skipWs_cons_of_not_ws _ _ (by decide)]
          simp only []
          rw [parseValue_scalar v hvsc hvb g _ (by simp [headDigit, isDigitByte])]
          simp only [Option.bind_eq_bind, Option.some_bind]
          rw [skipWs_cons_of_not_ws _ _ (by decide)]
          simp only []
          rw [ih (g + 1) rest (by simp)
            (fun kv hkv => hsc kv (by simp [hkv]))
            (fun kv hkv => hby kv (by simp [hkv]))
            (by simp at hfl ⊢; omega)]
          rfl

theorem stringifyFields_length (fs : List (List Nat × Json)) :
    fs.length ≤ (stringifyFields fs).length + 1 := by
  induction fs with
  | nil => simp
  | cons kv fs' ih =>
      obtain ⟨k, v⟩ := kv
      cases fs' with
      | nil => simp [stringifyFields.eq_2]
      | cons kv2 fs'' =>
          rw [stringifyFields.eq_3 _ _ _ (by simp)]
          simp only [List.length_cons, List.length_append] at ih ⊢
          omega

theorem escapeByte_bytes (b : Nat) (h : b < 256) : ∀ x ∈ escapeByte b, x < 256 := by
  intro x hx
  unfold escapeByte at hx
  split_ifs at hx <;> simp at hx <;> omega

theorem escapeString_bytes (k : List Nat) (h : ∀ b ∈ k, b < 256) :
    ∀ x ∈ escapeString k, x < 256 := by
  intro x hx
  unfold escapeString at hx
  simp only [List.mem_cons, List.mem_append, List.mem_flatMap,
    List.mem_singleton, List.not_mem_nil, or_false] at hx
  rcases hx with (rfl | ⟨b, hbm, hxb⟩) | rfl
  · omega
  · exact escapeByte_bytes b (h b hbm) x hxb
  · omega

theorem scalar_stringify_bytes (v : Json) (hv : isScalar v = true)
    (hb : scalarBytesOk v = true) : ∀ x ∈ jsonStringify v, x < 256 := by
  intro x hx
  cases v with
  | jnull =>
      rw [jsonStringify.eq_1] at hx
      simp at hx
      omega
  | jbool b =>
      cases b
      · rw [jsonStringify.eq_3] at hx
        simp at hx
        omega
      · rw [jsonStringify.eq_2] at hx
        simp at hx
        omega
  | jnum n =>
      rw [jsonStringify.eq_4] at hx
      unfold intDigits at hx
      split at hx
      · simp only [List.mem_cons] at hx
        rcases hx with rfl | hx
        · omega
        · have := natDigits_bounds _ x hx
          omega
      · have := natDigits_bounds _ x hx
        omega
  | jstr s =>
      rw [jsonStringify.eq_5] at hx
      have hs : ∀ b ∈ s, b < 256 := by
        intro b hbm
        simpa using (List.all_eq_true.mp hb) b hbm
      exact escapeString_bytes s hs x hx
  | jarr xs => simp [isScalar] at hv
  | jobj fs => simp [isScalar] at hv

theorem stringifyFields_bytes (fs : List (List Nat × Json))
    (hsc : ∀ kv ∈ fs, isScalar kv.2 = true)
    (hby : ∀ kv ∈ fs, (∀ b ∈ kv.1, b < 256) ∧ scalarBytesOk kv.2 = true) :
    ∀ x ∈ stringifyFields fs, x < 256 := by
  induction fs with
  | nil => simp [stringifyFields.eq_1]
  | cons kv fs' ih =>
      obtain ⟨k, v⟩ := kv
      have hksc : isScalar v = true := hsc (k, v) (by simp)
      have hkb : ∀ b ∈ k, b < 256 := (hby (k, v) (by simp)).1
      have hvb : scalarBytesOk v = true := (hby (k, v) (by simp)).2
      intro x hx
      cases fs' with
      | nil =>
          rw [stringifyFields.eq_2] at hx
          simp only [List.mem_append, List.mem_cons] at hx
          rcases hx with hx | hx | hx
          · exact escapeString_bytes k hkb x hx
          · omega
          · exact scalar_stringify_bytes v hksc hvb x hx
      | cons kv2 fs'' =>
          rw [stringifyFields.eq_3 _ _ _ (by simp)] at hx
          simp only [List.mem_append, List.mem_cons] at hx
          rcases hx with (hx | hx | hx) | (hx | hx)
          · exact escapeString_bytes k hkb x hx
          · omega
          · exact scalar_stringify_bytes v hksc hvb x hx
          · omega
          · exact ih (fun kv hkv => hsc kv (by simp [hkv]))
              (fun kv hkv => hby kv (by simp [hkv])) x hx

theorem jobj_stringify_bytes (fs : List (List Nat × Json))
    (hsc : ∀ kv ∈ fs, isScalar kv.2 = true)
    (hby : ∀ kv ∈ fs, (∀ b ∈ kv.1, b < 256) ∧ scalarBytesOk kv.2 = true) :
    ∀ x ∈ jsonStringify (.jobj fs), x < 256 := by
  intro x hx
  rw [jsonStringify.eq_7] at hx
  simp only [List.mem_cons, List.mem_append, List.mem_singleton,
    List.not_mem_nil, or_false] at hx
  rcases hx with (rfl | hx) | rfl
  · omega
  · exact stringifyFields_bytes fs hsc hby x hx
  · omega

theorem jsonParse_stringify (fs : List (List Nat × Json))
    (hsc : ∀ kv ∈ fs, isScalar kv.2 = true)
    (hby : ∀ kv ∈ fs, (∀ b ∈ kv.1, b < 256) ∧ scalarBytesOk kv.2 = true) :
    jsonParse (jsonStringify (.jobj fs)) = some (.jobj fs) := by
  rw [jsonStringify.eq_7]
  cases fs with
  | nil =>
      rw [stringifyFields.eq_1]
      rfl
  | cons kv fs' =>
      obtain ⟨k, v⟩ := kv
      have hhead : ∃ T, stringifyFields ((k, v) :: fs') = 34 :: T := by
        cases fs' with
        | nil =>
            refine ⟨k.flatMap escapeByte ++ 34 :: 58 :: jsonStringify v, ?_⟩
            rw [stringifyFields.eq_2]
            unfold escapeString
            simp
        | cons kv2 fs'' =>
            refine ⟨k.flatMap escapeByte ++
              34 :: 58 :: (jsonStringify v ++
                44 :: stringifyFields (kv2 :: fs'')), ?_⟩
            rw [stringifyFields.eq_3 _ _ _ (by simp)]
            unfold escapeString
            simp
      obtain ⟨T, hT⟩ := hhead
      have hlen : fs'.length + 2 ≤
          (stringifyFields ((k, v) :: fs')).length + 2 := by
        have := stringifyFields_length ((k, v) :: fs')
        simp only [List.length_cons] at this
        omega
      unfold jsonParse
      have hL : ((123 :: stringifyFields ((k, v) :: fs')) ++ [125]).length =
          (stringifyFields ((k, v) :: fs')).length + 2 := by
        simp
      rw [hL, parseValue.eq_2, List.cons_append,
        skipWs_cons_of_not_ws _ _ (by decide)]
      simp only []
      rw [if_neg (by decide), if_neg (by decide)]
      simp only [if_true]
      rw [show stringifyFields ((k, v) :: fs') ++ [125] = 34 :: (T ++ [125])
        from by rw [hT]; simp]
      rw [skipWs_cons_of_not_ws _ _ (by decide)]
      simp only []
      rw [show (34 : Nat) :: (T ++ [125]) =
        stringifyFields ((k, v) :: fs') ++ 125 :: ([] : List Nat) from by
          rw [hT]; simp]
      rw [parseMembers_fields ((k, v) :: fs') _ [] (by simp) hsc hby
        (by simp only [List.length_cons]; omega)]
      rfl

/-- C2: the pagination-cursor codec round-trips: for every flat
JSON-serializable record (an object whose values are scalars, with genuine
UTF-8 content bytes), base64-decoding the cursor produced by `createCursor`
and JSON-parsing the result returns exactly the original record. -/
theorem cursor_roundtrip (r : Json) (hflat : flatRecord r = true)
    (hbytes : flatBytesOk r = true) :
    parseCursor (createCursor r) = .ok r := by
  obtain ⟨fs, rfl⟩ : ∃ fs, r = .jobj fs := by
    cases r <;> simp [flatRecord] at hflat ⊢
  have hsc : ∀ kv ∈ fs, isScalar kv.2 = true := by
    intro kv hkv
    have h2 : fs.all (fun kv => isScalar kv.2) = true := by
      simpa [flatRecord] using hflat
    simpa using (List.all_eq_true.mp h2) kv hkv
  have hby : ∀ kv ∈ fs, (∀ b ∈ kv.1, b < 256) ∧ scalarBytesOk kv.2 = true := by
    intro kv hkv
    have h2 : fs.all
        (fun kv => kv.1.all (fun b => b < 256) && scalarBytesOk kv.2) = true := by
      simpa [flatBytesOk] using hbytes
    have h3 := (List.all_eq_true.mp h2) kv hkv
    simp only [Bool.and_eq_true] at h3
    refine ⟨?_, h3.2⟩
    intro b hbm
    simpa using (List.all_eq_true.mp h3.1) b hbm
  unfold parseCursor createCursor
  rw [base64_roundtrip _ (jobj_stringify_bytes fs hsc hby),
    jsonParse_stringify fs hsc hby]

/-- Witness for C2 at the specification's example record. -/
theorem cursor_roundtrip_witness :
    flatRecord (Json.jobj [(strBytes "pageNum", Json.jnum 3),
      (strBytes "simState", Json.jnum 6)]) = true ∧
    parseCursor (createCursor (Json.jobj [(strBytes "pageNum", Json.jnum 3),
      (strBytes "simState", Json.jnum 6)])) =
      .ok (Json.jobj [(strBytes "pageNum", Json.jnum 3),
        (strBytes "simState", Json.jnum 6)]) :=
  ⟨by decide,
   cursor_roundtrip _ (by decide) (by decide)⟩

end CMP
